import Mathlib

/-!
# Verification of the IBAN generation engine

A shallow embedding of `src/utils/ibanGenerator.ts` (and of the legacy
implementation kept in the repository) together with proofs of the
specification's testable properties.

Strings are modelled as Lean `String`s (sequences of characters); JavaScript
character codes are accessed through `Char.toNat`.  The cryptographic entropy
source (`crypto.getRandomValues`) is modelled as an arbitrary stream of bytes
`e : Nat → Nat` (read modulo 256) together with a cursor position, and the
rejection-sampling loop carries explicit fuel, so that every function of the
engine is a total Lean function.  JavaScript exceptions are modelled by an
explicit error value carrying the error's constructor name, message and the
optional `countryCode` payload of `IBANGenerationError`.
-/

/-- JavaScript's `Error` / `IBANGenerationError` values, as far as the engine
inspects them: the constructor name, the message, and the `countryCode`
payload of `IBANGenerationError`. -/
structure JSError where
  name : String
  message : String
  countryCode : Option String := none
  deriving DecidableEq, Repr

/-- Result of running a piece of the generator: a value together with the new
entropy-cursor position, a thrown error, or exhaustion of the fuel bounding
the rejection-sampling loop (the JS code would still be looping). -/
inductive GRes (α : Type) where
  | ok : α → Nat → GRes α
  | err : JSError → GRes α
  | spin : GRes α
  deriving DecidableEq, Repr

/-- Sequencing of generator steps: errors and fuel exhaustion propagate. -/
def GRes.bind {α β : Type} : GRes α → (α → Nat → GRes β) → GRes β
  | .ok a pos, f => f a pos
  | .err e, _ => .err e
  | .spin, _ => .spin

deriving instance DecidableEq for Except

/-! ## Characters and JS string primitives -/

/-- `'0' ≤ c ≤ '9'` (char codes 48–57). -/
def isDigitChar (c : Char) : Bool := 48 ≤ c.toNat && c.toNat ≤ 57

/-- `'A' ≤ c ≤ 'Z'` (char codes 65–90). -/
def isUpperChar (c : Char) : Bool := 65 ≤ c.toNat && c.toNat ≤ 90

/-- Character of the IBAN alphabet `[0-9A-Z]`. -/
def isAlnumChar (c : Char) : Bool := isDigitChar c || isUpperChar c

/-- The JavaScript whitespace set recognised by `String.prototype.trim`. -/
def jsIsWS (c : Char) : Bool :=
  let n := c.toNat
  n == 9 || n == 10 || n == 11 || n == 12 || n == 13 || n == 32 ||
  n == 160 || n == 5760 || (8192 ≤ n && n ≤ 8202) || n == 8232 ||
  n == 8233 || n == 8239 || n == 8287 || n == 12288 || n == 65279

/-- Per-character model of `String.prototype.toUpperCase` on the inputs the
engine handles: ASCII lowercase letters are mapped to uppercase, every other
character is unchanged. -/
def jsUpperChar (c : Char) : Char :=
  if 97 ≤ c.toNat ∧ c.toNat ≤ 122 then Char.ofNat (c.toNat - 32) else c

/-- `String.prototype.toUpperCase`. -/
def jsUpper (s : String) : String := String.mk (s.data.map jsUpperChar)

/-- Strip leading and trailing whitespace from a character list. -/
def trimList (l : List Char) : List Char :=
  ((l.dropWhile jsIsWS).reverse.dropWhile jsIsWS).reverse

/-- `String.prototype.trim`: strip leading and trailing whitespace. -/
def jsTrim (s : String) : String := String.mk (trimList s.data)

/-- Value of a decimal numeral string (the `BigInt(numericString)` parse):
fold each digit into `acc * 10 + d`. -/
def strToNat (s : String) : Nat :=
  s.data.foldl (fun acc c => acc * 10 + (c.toNat - 48)) 0

/-- `String.prototype.padStart(2, '0')`. -/
def padStart2 (s : String) : String :=
  if s.length < 2 then String.mk (List.replicate (2 - s.length) '0') ++ s else s

/-- `Number.prototype.toString` on an integer. -/
def jsNumToString (n : Int) : String := Int.repr n

/-! ## Secure random primitives (`getSecureRandomInt` and the string generators)

`crypto.getRandomValues(new Uint8Array(B))` followed by
`reduce((sum, byte, index) => sum + byte * 256 ** index, 0)` reads `B` bytes
from the entropy stream. -/

/-- The value assembled from `B` bytes of the entropy stream starting at
position `pos` (the `reduce` over the `Uint8Array`, little-endian). -/
def drawBytes (e : Nat → Nat) (pos B : Nat) : Nat :=
  (List.range B).foldl (fun sum i => sum + (e (pos + i) % 256) * 256 ^ i) 0

/-- `Math.ceil(Math.log2(range) / 8)`: the least `B` with `256 ^ B ≥ range`
(computed by first-match search so that it evaluates by kernel reduction). -/
def bytesNeededFor (range : Nat) : Nat :=
  match (List.range (range + 1)).find? (fun B => range ≤ 256 ^ B) with
  | some B => B
  | none => range

/-- `Math.floor(256 ** bytesNeeded / range) * range - 1`. -/
def maxValidValueFor (range : Nat) : Nat :=
  256 ^ bytesNeededFor range / range * range - 1

theorem le_pow_self_256 (n : Nat) : n ≤ 256 ^ n := by
  cases n with
  | zero => exact Nat.zero_le _
  | succ m => exact Nat.le_of_lt (Nat.lt_pow_self (by norm_num) _)

theorem bytesNeededFor_le_pow (range : Nat) : range ≤ 256 ^ bytesNeededFor range := by
  unfold bytesNeededFor
  cases hf : (List.range (range + 1)).find? (fun B => range ≤ 256 ^ B) with
  | some B =>
    have := List.find?_some hf
    simpa using this
  | none =>
    exfalso
    have hmem : range ∈ List.range (range + 1) := by
      simp
    have := List.find?_eq_none.mp hf range hmem
    simp only [decide_eq_true_eq] at this
    exact this (le_pow_self_256 range)

/-- The `do … while (randomValue > maxValidValue)` rejection loop: draw `B`
bytes, accept the value iff it does not exceed `maxValid`, else redraw. -/
def rejectionLoop (maxValid B : Nat) (e : Nat → Nat) : Nat → Nat → GRes Nat
  | 0, _ => .spin
  | fuel + 1, pos =>
    let v := drawBytes e pos B
    if v ≤ maxValid then .ok v (pos + B) else rejectionLoop maxValid B e fuel (pos + B)

/-- `getSecureRandomInt(min, max)`: throws when `min > max`, otherwise
rejection-samples an unbiased value of `[min, max]`. -/
def getSecureRandomInt (min max : Int) (e : Nat → Nat) (fuel pos : Nat) : GRes Int :=
  if min > max then
    .err ⟨"Error", "Minimum value cannot be greater than maximum value", none⟩
  else
    let range := (max - min + 1).toNat
    let B := bytesNeededFor range
    (rejectionLoop (maxValidValueFor range) B e fuel pos).bind fun v p =>
      .ok (min + ((v % range : Nat) : Int)) p

/-- `generateRandomNumericString(length)`: `length` independent decimal
digits, each drawn by `getSecureRandomInt(0, 9)`. -/
def generateRandomNumericString (len : Nat) (e : Nat → Nat) (fuel pos : Nat) : GRes String :=
  match len with
  | 0 => .ok "" pos
  | n + 1 =>
    (getSecureRandomInt 0 9 e fuel pos).bind fun d p =>
      (generateRandomNumericString n e fuel p).bind fun rest p' =>
        .ok (jsNumToString d ++ rest) p'

/-- The alphabet of `generateRandomAlphanumericString`. -/
def alphanumChars : String := "ABCDEFGHIJKLMNOPQRSTUVWXYZ0123456789"

/-- `generateRandomAlphanumericString(length)`: `length` characters drawn
uniformly from `alphanumChars`. -/
def generateRandomAlphanumericString (len : Nat) (e : Nat → Nat) (fuel pos : Nat) : GRes String :=
  match len with
  | 0 => .ok "" pos
  | n + 1 =>
    (getSecureRandomInt 0 ((alphanumChars.length : Int) - 1) e fuel pos).bind fun i p =>
      (generateRandomAlphanumericString n e fuel p).bind fun rest p' =>
        .ok (String.mk [alphanumChars.data.getD i.toNat ' '] ++ rest) p'

/-! ## The country registry -/

/-- The TS union type `IBANCountryCode`. -/
inductive IBANCountryCode where
  | NL | DE | FR | GB | ES | IT | BE | CH | AT | DK
  deriving DecidableEq, Repr, Fintype

/-- The two-letter string of a country code. -/
def IBANCountryCode.code : IBANCountryCode → String
  | .NL => "NL" | .DE => "DE" | .FR => "FR" | .GB => "GB" | .ES => "ES"
  | .IT => "IT" | .BE => "BE" | .CH => "CH" | .AT => "AT" | .DK => "DK"

/-- The TS interface `IBANCountryConfig`. -/
structure IBANCountryConfig where
  name : String
  length : Nat
  format : String
  bankCodeLength : Nat
  accountNumberLength : Nat
  sampleBankCodes : List String
  deriving DecidableEq, Repr

/-- The `countries` table of `src/utils/ibanGenerator.ts`. -/
def countries : IBANCountryCode → IBANCountryConfig
  | .NL => ⟨"Netherlands", 18, "NL2!n4!a10!n", 4, 10, ["ABNA", "INGB", "RABO", "TRIO"]⟩
  | .DE => ⟨"Germany", 22, "DE2!n8!n10!n", 8, 10, ["10010010", "20070024", "37040044", "50010517"]⟩
  | .FR => ⟨"France", 27, "FR2!n5!n5!n11!c2!n", 10, 13, ["2004100005", "3000200009", "1027800002", "2004100005"]⟩
  | .GB => ⟨"United Kingdom", 22, "GB2!n4!a6!n8!n", 10, 8, ["ABBY060001", "BARC200000", "HBUK400003", "LOYD309634"]⟩
  | .ES => ⟨"Spain", 24, "ES2!n4!n4!n1!n1!n10!n", 8, 12, ["21000418", "00720301", "01820200", "21000001"]⟩
  | .IT => ⟨"Italy", 27, "IT2!n1!a5!n5!n12!c", 11, 12, ["X0542811101", "A0306901691", "U0301503200", "C0301503400"]⟩
  | .BE => ⟨"Belgium", 16, "BE2!n3!n7!n2!n", 3, 9, ["539", "096", "001", "068"]⟩
  | .CH => ⟨"Switzerland", 21, "CH2!n5!n12!c", 5, 12, ["00762", "08390", "00230", "00254"]⟩
  | .AT => ⟨"Austria", 20, "AT2!n5!n11!n", 5, 11, ["19043", "32000", "20111", "14000"]⟩
  | .DK => ⟨"Denmark", 18, "DK2!n4!n9!n1!n", 4, 10, ["0040", "5301", "9570", "7311"]⟩

/-- The insertion order of the `countries` object's keys
(`Object.keys(countries)`). -/
def countryList : List IBANCountryCode :=
  [.NL, .DE, .FR, .GB, .ES, .IT, .BE, .CH, .AT, .DK]

/-- `Object.keys(countries)`. -/
def countryKeys : List String := countryList.map IBANCountryCode.code

/-- Key lookup in the `countries` object (`countryCode in countries`;
no prototype-chain key can collide with an upper-cased probe). -/
def countryOfString (s : String) : Option IBANCountryCode :=
  match s with
  | "NL" => some .NL | "DE" => some .DE | "FR" => some .FR | "GB" => some .GB
  | "ES" => some .ES | "IT" => some .IT | "BE" => some .BE | "CH" => some .CH
  | "AT" => some .AT | "DK" => some .DK
  | _ => none

/-- `isValidCountryCode(countryCode)`. -/
def isValidCountryCode (s : String) : Bool := (countryOfString s).isSome

/-- The message of the unsupported-country error: it quotes the offending
code and enumerates `Object.keys(countries)` joined by `', '`. -/
def unsupportedMessage (countryCode : String) : String :=
  "Country code \x27" ++ countryCode ++ "\x27 is not supported. Supported codes: " ++
    String.intercalate ", " countryKeys

/-- `validateCountryCode(countryCode)`: the TS assertion function; success is
modelled by returning the registry key the string was asserted to be. -/
def validateCountryCode (countryCode : String) : Except JSError IBANCountryCode :=
  if countryCode = "" then
    .error ⟨"IBANGenerationError", "Country code is required", none⟩
  else
    match countryOfString (jsUpper countryCode) with
    | some c => .ok c
    | none => .error ⟨"IBANGenerationError", unsupportedMessage countryCode, some countryCode⟩

/-! ## Component generators -/

/-- The `replace(/\d/g, () => String.fromCharCode(65 + getSecureRandomInt(0, 25)))`
callback chain used by the format-fallback branches for NL and GB bank codes:
every digit of the string is replaced by a fresh random uppercase letter. -/
def replaceDigitsWithRandomLetters (l : List Char) (e : Nat → Nat) (fuel : Nat) : Nat → GRes String :=
  fun pos =>
    match l with
    | [] => .ok "" pos
    | ch :: rest =>
      if isDigitChar ch then
        (getSecureRandomInt 0 25 e fuel pos).bind fun r p =>
          (replaceDigitsWithRandomLetters rest e fuel p).bind fun restS p' =>
            .ok (String.mk [Char.ofNat (65 + r).toNat] ++ restS) p'
      else
        (replaceDigitsWithRandomLetters rest e fuel pos).bind fun restS p' =>
          .ok (String.mk [ch] ++ restS) p'

/-- `generateBankCode(countryCode)`: pick a sample bank code when the pool is
non-empty, otherwise synthesize one matching the country's format. -/
def generateBankCode (countryCode : IBANCountryCode) (e : Nat → Nat) (fuel pos : Nat) : GRes String :=
  let config := countries countryCode
  let sampleCodes := config.sampleBankCodes
  if sampleCodes.length > 0 then
    (getSecureRandomInt 0 ((sampleCodes.length : Int) - 1) e fuel pos).bind fun randomIndex p =>
      .ok (sampleCodes.getD randomIndex.toNat "") p
  else
    match countryCode with
    | .NL =>
      (generateRandomAlphanumericString 4 e fuel pos).bind fun s p =>
        replaceDigitsWithRandomLetters s.data e fuel p
    | .DE | .ES | .BE | .CH | .AT | .DK =>
      generateRandomNumericString config.bankCodeLength e fuel pos
    | .FR =>
      (generateRandomNumericString 5 e fuel pos).bind fun a p =>
        (generateRandomNumericString 5 e fuel p).bind fun b p' =>
          .ok (a ++ b) p'
    | .GB =>
      (generateRandomAlphanumericString 4 e fuel pos).bind fun s p =>
        (replaceDigitsWithRandomLetters s.data e fuel p).bind fun letters p' =>
          (generateRandomNumericString 6 e fuel p').bind fun digits p'' =>
            .ok (letters ++ digits) p''
    | .IT =>
      (getSecureRandomInt 0 25 e fuel pos).bind fun r p =>
        (generateRandomNumericString 5 e fuel p).bind fun a p' =>
          (generateRandomNumericString 5 e fuel p').bind fun b p'' =>
            .ok (String.mk [Char.ofNat (65 + r).toNat] ++ a ++ b) p''

/-- `generateAccountNumber(countryCode)`. -/
def generateAccountNumber (countryCode : IBANCountryCode) (e : Nat → Nat) (fuel pos : Nat) : GRes String :=
  let config := countries countryCode
  match countryCode with
  | .FR =>
    (generateRandomAlphanumericString 11 e fuel pos).bind fun a p =>
      (generateRandomNumericString 2 e fuel p).bind fun b p' =>
        .ok (a ++ b) p'
  | .IT => generateRandomAlphanumericString 12 e fuel pos
  | .CH => generateRandomAlphanumericString 12 e fuel pos
  | _ => generateRandomNumericString config.accountNumberLength e fuel pos

/-! ## Checksum engine -/

/-- `charToNumber(char)`: digits map to themselves, `A`–`Z` to `10`–`35`,
anything else throws. -/
def charToNumber (c : Char) : Except JSError String :=
  let code := c.toNat
  if 48 ≤ code ∧ code ≤ 57 then
    .ok (String.mk [c])
  else if 65 ≤ code ∧ code ≤ 90 then
    .ok (Nat.repr (code - 55))
  else
    .error ⟨"IBANGenerationError",
      "Invalid character \x27" ++ String.mk [c] ++ "\x27 in IBAN calculation", none⟩

/-- The transliteration loop of `calculateCheckDigits`:
`numericString += charToNumber(char.toUpperCase())` over the rearranged
string. -/
def translitChars : List Char → Except JSError String
  | [] => .ok ""
  | c :: cs => do
    let t ← charToNumber (jsUpperChar c)
    let rest ← translitChars cs
    .ok (t ++ rest)

/-- `calculateCheckDigits(countryCode, bankCode, accountNumber)`: the ISO 7064
mod-97 computation over `bankCode ++ accountNumber ++ countryCode ++ "00"`;
the surrounding `try`/`catch` rewraps any thrown error. -/
def calculateCheckDigits (countryCode bankCode accountNumber : String) : Except JSError String :=
  let rearranged := bankCode ++ accountNumber ++ countryCode ++ "00"
  match translitChars rearranged.data with
  | .error er =>
    .error ⟨"IBANGenerationError",
      "Failed to calculate check digits: " ++ er.message, some countryCode⟩
  | .ok numericString =>
    let remainder := strToNat numericString % 97
    let checkDigits := 98 - remainder
    .ok (padStart2 (Nat.repr checkDigits))

/-! ## Self-verification and orchestrator -/

/-- `validateGeneratedIBAN(iban, countryCode)`: exact length, country-code
prefix, and two decimal check digits at positions 2–3. -/
def validateGeneratedIBAN (iban : String) (countryCode : IBANCountryCode) : Except JSError Unit :=
  let config := countries countryCode
  if iban.length ≠ config.length then
    .error ⟨"IBANGenerationError",
      "Generated IBAN has incorrect length. Expected " ++ Nat.repr config.length ++
        ", got " ++ Nat.repr iban.length, some countryCode.code⟩
  else if countryCode.code.data.isPrefixOf iban.data ≠ true then
    .error ⟨"IBANGenerationError",
      "Generated IBAN does not start with country code " ++ countryCode.code,
      some countryCode.code⟩
  else
    let checkDigits := (iban.data.drop 2).take 2
    if (checkDigits.length == 2 && checkDigits.all isDigitChar) ≠ true then
      .error ⟨"IBANGenerationError",
        "Invalid check digits: " ++ String.mk checkDigits, some countryCode.code⟩
    else
      .ok ()

/-- `generateIBAN(countryCode)` with the checksum engine as a parameter (the
call site of `calculateCheckDigits` is the single point abstracted; taking
two different engines yields extensional evidence that a run did not consult
the engine).  `generateIBAN` itself instantiates it with
`calculateCheckDigits`. -/
def generateIBANwith (checksum : String → String → String → Except JSError String)
    (countryCode : String) (e : Nat → Nat) (fuel pos : Nat) : GRes String :=
  let normalizedCountryCode := jsTrim (jsUpper countryCode)
  match validateCountryCode normalizedCountryCode with
  | .error er => .err er
  | .ok c =>
    let attempt : GRes String :=
      (generateBankCode c e fuel pos).bind fun bankCode p1 =>
        (generateAccountNumber c e fuel p1).bind fun accountNumber p2 =>
          match checksum normalizedCountryCode bankCode accountNumber with
          | .error er => .err er
          | .ok checkDigits =>
            let iban := normalizedCountryCode ++ checkDigits ++ bankCode ++ accountNumber
            match validateGeneratedIBAN iban c with
            | .error er => .err er
            | .ok _ => .ok iban p2
    match attempt with
    | .err er =>
      if er.name = "IBANGenerationError" then .err er
      else .err ⟨"IBANGenerationError",
        "Unexpected error during IBAN generation: " ++ er.message,
        some normalizedCountryCode⟩
    | other => other

/-- `generateIBAN(countryCode)`. -/
def generateIBAN (countryCode : String) (e : Nat → Nat) (fuel pos : Nat) : GRes String :=
  generateIBANwith calculateCheckDigits countryCode e fuel pos

/-! ## The legacy implementation (`src/unnamed/part_000`) -/

namespace Legacy

/-- The legacy `calculateCheckDigits`: regex-replace every `A`–`Z` by its
two-digit code, parse the result as a `BigInt`, and compute `98 - (n % 97)`
padded to two characters. -/
def calculateCheckDigits (countryCode bankCode accountNumber : String) : String :=
  let rearranged := bankCode ++ accountNumber ++ countryCode ++ "00"
  let numericString := String.mk (rearranged.data.flatMap fun c =>
    if isUpperChar c then (Nat.repr (c.toNat - 55)).data else [c])
  let remainder := strToNat numericString % 97
  let checkDigits := 98 - remainder
  padStart2 (Nat.repr checkDigits)

end Legacy

/-! ## The companion validator -/

/-- Modelled from the spec: the companion `validateIBAN` of §4.4 and §6 is not
part of `src/`; per the spec it moves the first four characters of the
candidate to the end, transliterates (digits to themselves, `A`–`Z` to
`10`–`35`), and accepts exactly when the resulting numeral is `≡ 1 (mod 97)`. -/
def validateIBAN (iban : String) : Bool :=
  let rearranged := iban.data.drop 4 ++ iban.data.take 4
  match translitChars rearranged with
  | .error _ => false
  | .ok numericString => strToNat numericString % 97 == 1

/-! ## Lemmas: the rejection sampler -/

theorem rejectionLoop_ok_le {maxValid B : Nat} {e : Nat → Nat} {fuel pos v p : Nat}
    (h : rejectionLoop maxValid B e fuel pos = .ok v p) : v ≤ maxValid := by
  induction fuel generalizing pos with
  | zero => simp [rejectionLoop] at h
  | succ n ih =>
    unfold rejectionLoop at h
    simp only [] at h
    split at h
    · cases h; assumption
    · exact ih h

theorem getSecureRandomInt_ok_bounds {mn mx : Int} {e : Nat → Nat} {fuel pos : Nat}
    {v : Int} {p : Nat} (h : getSecureRandomInt mn mx e fuel pos = .ok v p) :
    mn ≤ v ∧ v ≤ mx := by
  unfold getSecureRandomInt at h
  split at h
  · exact absurd h (by simp)
  · rename_i hle
    have hle' : mn ≤ mx := not_lt.mp hle
    simp only [] at h
    have hrpos : 0 < (mx - mn + 1).toNat := by omega
    cases hrl : rejectionLoop (maxValidValueFor (mx - mn + 1).toNat)
        (bytesNeededFor (mx - mn + 1).toNat) e fuel pos with
    | ok w p' =>
      rw [hrl] at h
      simp only [GRes.bind, GRes.ok.injEq] at h
      obtain ⟨h1, rfl⟩ := h
      subst h1
      have hmod : w % (mx - mn + 1).toNat < (mx - mn + 1).toNat := Nat.mod_lt _ hrpos
      have hmodcast : ((w % (mx - mn + 1).toNat : Nat) : Int) < (((mx - mn + 1).toNat : Nat) : Int) := by
        exact_mod_cast hmod
      have hcast : (((mx - mn + 1).toNat : Nat) : Int) = mx - mn + 1 :=
        Int.toNat_of_nonneg (by omega)
      have hnn : (0 : Int) ≤ ((w % (mx - mn + 1).toNat : Nat) : Int) := Int.ofNat_nonneg _
      omega
    | err er => rw [hrl] at h; simp [GRes.bind] at h
    | spin => rw [hrl] at h; simp [GRes.bind] at h

theorem card_range_mod (m n t : Nat) (hn : t < n) :
    ((Finset.range (m * n)).filter (fun v => v % n = t)).card = m := by
  have hpos : 0 < n := lt_of_le_of_lt (Nat.zero_le t) hn
  have himg : (Finset.range (m * n)).filter (fun v => v % n = t)
      = (Finset.range m).image (fun j => j * n + t) := by
    ext v
    simp only [Finset.mem_filter, Finset.mem_range, Finset.mem_image]
    constructor
    · rintro ⟨hv, hmod⟩
      refine ⟨v / n, (Nat.div_lt_iff_lt_mul hpos).mpr hv, ?_⟩
      conv_rhs => rw [← Nat.div_add_mod v n]
      rw [hmod]; ring
    · rintro ⟨j, hj, rfl⟩
      refine ⟨?_, ?_⟩
      · calc j * n + t < j * n + n := by omega
          _ = (j + 1) * n := by ring
          _ ≤ m * n := Nat.mul_le_mul_right n hj
      · rw [Nat.mul_comm j n, Nat.mul_add_mod, Nat.mod_eq_of_lt hn]
  rw [himg, Finset.card_image_of_injective _ ?_, Finset.card_range]
  intro a b hab
  simp only at hab
  have : a * n = b * n := by omega
  exact Nat.eq_of_mul_eq_mul_right hpos this

/-- C5: for every pair of integers `min ≤ max`, `getSecureRandomInt(min, max)`
returns an integer in `[min, max]`; every value of `[min, max]` is produced by
exactly the same number (`⌊256^B / range⌋`) of accepted raw byte draws, so the
rejection step makes the sampler unbiased; and for `min > max` the function
throws, whatever the entropy stream holds. -/
theorem getSecureRandomInt_spec (mn mx : Int) :
    (mn ≤ mx →
      (∀ e fuel pos v p, getSecureRandomInt mn mx e fuel pos = .ok v p →
          mn ≤ v ∧ v ≤ mx)
      ∧ (∀ k : Int, mn ≤ k → k ≤ mx →
          ((Finset.range (256 ^ bytesNeededFor (mx - mn + 1).toNat)).filter
            (fun v => v ≤ maxValidValueFor (mx - mn + 1).toNat ∧
              mn + ((v % (mx - mn + 1).toNat : Nat) : Int) = k)).card
            = 256 ^ bytesNeededFor (mx - mn + 1).toNat / (mx - mn + 1).toNat))
    ∧ (mx < mn → ∀ e fuel pos, getSecureRandomInt mn mx e fuel pos =
        .err ⟨"Error", "Minimum value cannot be greater than maximum value", none⟩) := by
  constructor
  · intro hle
    constructor
    · intro e fuel pos v p h
      exact getSecureRandomInt_ok_bounds h
    · intro k hk1 hk2
      have hrpos : 0 < (mx - mn + 1).toNat := by omega
      have hge : (mx - mn + 1).toNat ≤ 256 ^ bytesNeededFor (mx - mn + 1).toNat :=
        bytesNeededFor_le_pow _
      have hmv : maxValidValueFor (mx - mn + 1).toNat =
          256 ^ bytesNeededFor (mx - mn + 1).toNat / (mx - mn + 1).toNat *
            (mx - mn + 1).toNat - 1 := rfl
      generalize hR : (mx - mn + 1).toNat = range at hrpos hge hmv ⊢
      generalize hP : 256 ^ bytesNeededFor range = P at hge hmv ⊢
      generalize hM : P / range = m at hmv ⊢
      have hmpos : 0 < m := by rw [← hM]; exact Nat.div_pos hge hrpos
      have hmle : m * range ≤ P := by rw [← hM]; exact Nat.div_mul_le_self _ _
      have hmrpos : 0 < m * range := Nat.mul_pos hmpos hrpos
      have htlt : (k - mn).toNat < range := by omega
      have hset : (Finset.range P).filter
            (fun v => v ≤ maxValidValueFor range ∧ mn + ((v % range : Nat) : Int) = k)
          = (Finset.range (m * range)).filter (fun v => v % range = (k - mn).toNat) := by
        ext v
        simp only [Finset.mem_filter, Finset.mem_range, hmv]
        constructor
        · rintro ⟨hvP, hvle, hveq⟩
          exact ⟨by omega, by omega⟩
        · rintro ⟨hv1, hv2⟩
          have hvr : ((v % range : Nat) : Int) = (((k - mn).toNat : Nat) : Int) := by
            rw [hv2]
          refine ⟨by omega, by omega, by omega⟩
      rw [hset, card_range_mod m range _ htlt]
  · intro hlt e fuel pos
    unfold getSecureRandomInt
    rw [if_pos (by omega)]

/-- Witness for C5 at `min = 0, max = 9` (each of the ten digits is hit by
exactly 25 of the 250 accepted one-byte draws) and at `min = 1, max = 0`
(the failure case). -/
theorem getSecureRandomInt_spec_witness :
    ((Finset.range (256 ^ bytesNeededFor ((9 : Int) - 0 + 1).toNat)).filter
      (fun v => v ≤ maxValidValueFor ((9 : Int) - 0 + 1).toNat ∧
        (0 : Int) + ((v % ((9 : Int) - 0 + 1).toNat : Nat) : Int) = 3)).card
      = 256 ^ bytesNeededFor ((9 : Int) - 0 + 1).toNat / ((9 : Int) - 0 + 1).toNat
    ∧ getSecureRandomInt 1 0 (fun _ => 0) 1 0 =
        .err ⟨"Error", "Minimum value cannot be greater than maximum value", none⟩ :=
  ⟨((getSecureRandomInt_spec 0 9).1 (by decide)).2 3 (by decide) (by decide),
   (getSecureRandomInt_spec 1 0).2 (by decide) (fun _ => 0) 1 0⟩

/-! ## Lemmas: characters and normalization -/

theorem Char.toNat_ofNat_valid {n : Nat} (h : n.isValidChar) :
    (Char.ofNat n).toNat = n := by
  simp [Char.ofNat, h]; rfl

theorem jsUpperChar_toNat_of_lower {c : Char} (h : 97 ≤ c.toNat ∧ c.toNat ≤ 122) :
    (jsUpperChar c).toNat = c.toNat - 32 := by
  rw [jsUpperChar, if_pos h]
  exact Char.toNat_ofNat_valid (Or.inl (by omega))

theorem jsUpperChar_of_not_lower {c : Char} (h : ¬(97 ≤ c.toNat ∧ c.toNat ≤ 122)) :
    jsUpperChar c = c := by
  rw [jsUpperChar, if_neg h]

theorem jsUpperChar_of_alnum {c : Char} (h : isAlnumChar c = true) :
    jsUpperChar c = c := by
  apply jsUpperChar_of_not_lower
  simp [isAlnumChar, isDigitChar, isUpperChar] at h
  omega

theorem jsUpperChar_idem (c : Char) : jsUpperChar (jsUpperChar c) = jsUpperChar c := by
  by_cases h : 97 ≤ c.toNat ∧ c.toNat ≤ 122
  · apply jsUpperChar_of_not_lower
    rw [jsUpperChar_toNat_of_lower h]
    omega
  · simp only [jsUpperChar_of_not_lower h]

theorem jsIsWS_of_toNat (c : Char) : jsIsWS c = true ↔
    c.toNat = 9 ∨ c.toNat = 10 ∨ c.toNat = 11 ∨ c.toNat = 12 ∨ c.toNat = 13 ∨
    c.toNat = 32 ∨ c.toNat = 160 ∨ c.toNat = 5760 ∨
    (8192 ≤ c.toNat ∧ c.toNat ≤ 8202) ∨ c.toNat = 8232 ∨ c.toNat = 8233 ∨
    c.toNat = 8239 ∨ c.toNat = 8287 ∨ c.toNat = 12288 ∨ c.toNat = 65279 := by
  simp [jsIsWS]
  tauto

theorem jsIsWS_jsUpperChar (c : Char) : jsIsWS (jsUpperChar c) = jsIsWS c := by
  by_cases h : 97 ≤ c.toNat ∧ c.toNat ≤ 122
  · have h1 : jsIsWS (jsUpperChar c) = false := by
      rw [← Bool.not_eq_true, jsIsWS_of_toNat, jsUpperChar_toNat_of_lower h]
      omega
    have h2 : jsIsWS c = false := by
      rw [← Bool.not_eq_true, jsIsWS_of_toNat]
      omega
    rw [h1, h2]
  · rw [jsUpperChar_of_not_lower h]

theorem dropWhile_dropWhile {α : Type} (p : α → Bool) (l : List α) :
    List.dropWhile p (List.dropWhile p l) = List.dropWhile p l := by
  induction l with
  | nil => rfl
  | cons a t ih =>
    by_cases h : p a
    · rw [List.dropWhile_cons, if_pos h]
      exact ih
    · rw [List.dropWhile_cons, if_neg h, List.dropWhile_cons, if_neg h]

theorem dropWhile_eq_self_of_prefix {α : Type} {p : α → Bool} {u l : List α}
    (hl : List.dropWhile p l = l) (hu : u <+: l) : List.dropWhile p u = u := by
  cases u with
  | nil => rfl
  | cons a u' =>
    cases l with
    | nil => exact absurd (List.eq_nil_of_prefix_nil hu) (by simp)
    | cons b l' =>
      obtain ⟨rfl, -⟩ := List.cons_prefix_cons.mp hu
      have hb : ¬ p a = true := by
        have := List.dropWhile_eq_self_iff.mp hl (by simp)
        simpa using this
      rw [List.dropWhile_cons, if_neg hb]

theorem trimList_isPrefix_of_noLead {p : Char → Bool} (l : List Char) :
    (List.dropWhile p l.reverse).reverse <+: l := by
  have h2 := List.reverse_prefix.mpr (List.dropWhile_suffix (l := l.reverse) p)
  rwa [List.reverse_reverse] at h2

theorem trimList_trimList (l : List Char) : trimList (trimList l) = trimList l := by
  rw [trimList, trimList]
  have h1 : List.dropWhile jsIsWS ((List.dropWhile jsIsWS
      (List.dropWhile jsIsWS l).reverse).reverse)
      = (List.dropWhile jsIsWS (List.dropWhile jsIsWS l).reverse).reverse := by
    apply dropWhile_eq_self_of_prefix (dropWhile_dropWhile jsIsWS l)
    exact trimList_isPrefix_of_noLead _
  rw [h1, List.reverse_reverse, dropWhile_dropWhile]

theorem map_dropWhile_ws (l : List Char) :
    List.map jsUpperChar (List.dropWhile jsIsWS l)
      = List.dropWhile jsIsWS (List.map jsUpperChar l) := by
  have hcomp : (jsIsWS ∘ jsUpperChar) = jsIsWS := funext jsIsWS_jsUpperChar
  rw [List.dropWhile_map, hcomp]

theorem map_trimList (l : List Char) :
    (trimList l).map jsUpperChar = trimList (l.map jsUpperChar) := by
  rw [trimList, trimList, List.map_reverse, map_dropWhile_ws, List.map_reverse,
    map_dropWhile_ws]

theorem jsUpper_jsTrim (s : String) : jsUpper (jsTrim s) = jsTrim (jsUpper s) := by
  rw [jsUpper, jsTrim, jsTrim, jsUpper]
  exact congrArg String.mk (map_trimList s.data)

theorem jsTrim_jsTrim (s : String) : jsTrim (jsTrim s) = jsTrim s := by
  rw [jsTrim, jsTrim]
  exact congrArg String.mk (trimList_trimList s.data)

theorem jsUpper_jsUpper (s : String) : jsUpper (jsUpper s) = jsUpper s := by
  rw [jsUpper, jsUpper]
  apply congrArg String.mk
  show List.map jsUpperChar (List.map jsUpperChar s.data) = _
  rw [List.map_map]
  exact List.map_congr_left fun c _ => jsUpperChar_idem c

theorem jsNormalize_idem (s : String) :
    jsTrim (jsUpper (jsTrim (jsUpper s))) = jsTrim (jsUpper s) := by
  rw [jsUpper_jsTrim, jsTrim_jsTrim, jsUpper_jsUpper]

/-- C8: `generateIBAN` behaves identically on an input string and on its
trimmed, upper-cased form — same entropy stream, same result, including the
failure cases (the input only ever enters the computation through its
normalized form, and normalization is idempotent). -/
theorem generateIBAN_normalized (s : String) (e : Nat → Nat) (fuel pos : Nat) :
    generateIBAN (jsTrim (jsUpper s)) e fuel pos = generateIBAN s e fuel pos := by
  unfold generateIBAN generateIBANwith
  rw [jsNormalize_idem]

/-! ## Lemmas: decimal numerals -/

theorem foldl_digits_acc (l : List Char) (acc : Nat) :
    l.foldl (fun a c => a * 10 + (c.toNat - 48)) acc
      = acc * 10 ^ l.length + l.foldl (fun a c => a * 10 + (c.toNat - 48)) 0 := by
  induction l generalizing acc with
  | nil => simp
  | cons a t ih =>
    rw [List.foldl_cons, List.foldl_cons, ih, ih (0 * 10 + (a.toNat - 48))]
    ring_nf
    rw [List.length_cons]
    ring

theorem strToNat_append (a b : String) :
    strToNat (a ++ b) = strToNat a * 10 ^ b.length + strToNat b := by
  unfold strToNat
  rw [String.data_append, List.foldl_append, foldl_digits_acc]
  rfl

theorem padStart2_facts : ∀ n : Fin 99, 2 ≤ n.val →
    (padStart2 (Nat.repr n.val)).length = 2
    ∧ (padStart2 (Nat.repr n.val)).data.all isDigitChar = true
    ∧ strToNat (padStart2 (Nat.repr n.val)) = n.val := by decide

/-! ## Lemmas: transliteration -/

theorem charToNumber_digit {c : Char} (h : isDigitChar c = true) :
    charToNumber c = .ok (String.mk [c]) := by
  simp only [isDigitChar, Bool.and_eq_true, decide_eq_true_eq] at h
  rw [charToNumber, if_pos h]

theorem charToNumber_upper {c : Char} (h : isUpperChar c = true) :
    charToNumber c = .ok (Nat.repr (c.toNat - 55)) := by
  simp only [isUpperChar, Bool.and_eq_true, decide_eq_true_eq] at h
  rw [charToNumber, if_neg (by omega), if_pos h]

theorem upper_repr_digits : ∀ n : Fin 36, 10 ≤ n.val →
    (Nat.repr n.val).data.all isDigitChar = true := by decide

theorem translitChars_append {l1 l2 : List Char} {t1 t2 : String}
    (h1 : translitChars l1 = .ok t1) (h2 : translitChars l2 = .ok t2) :
    translitChars (l1 ++ l2) = .ok (t1 ++ t2) := by
  induction l1 generalizing t1 with
  | nil =>
    simp only [translitChars] at h1
    cases h1
    simpa using h2
  | cons c cs ih =>
    simp only [translitChars, bind, Except.bind] at h1 ⊢
    cases hc : charToNumber (jsUpperChar c) with
    | error er => rw [hc] at h1; simp at h1
    | ok tc =>
      rw [hc] at h1
      simp only at h1
      cases hcs : translitChars cs with
      | error er => rw [hcs] at h1; simp at h1
      | ok tcs =>
        rw [hcs] at h1
        simp only [Except.ok.injEq] at h1
        subst h1
        dsimp only
        rw [show List.append cs l2 = cs ++ l2 from rfl, ih hcs]
        simp only [Except.ok.injEq]
        apply congrArg String.mk
        simp [String.data_append]

theorem translit_of_digits {l : List Char} (h : l.all isDigitChar = true) :
    translitChars l = .ok (String.mk l) := by
  induction l with
  | nil => rfl
  | cons c cs ih =>
    simp only [List.all_cons, Bool.and_eq_true] at h
    obtain ⟨hc, hcs⟩ := h
    have halnum : isAlnumChar c = true := by
      simp [isAlnumChar, hc]
    simp only [translitChars, bind, Except.bind, jsUpperChar_of_alnum halnum,
      charToNumber_digit hc, ih hcs]
    rfl

theorem translit_of_alnum {l : List Char} (h : l.all isAlnumChar = true) :
    ∃ t : String, translitChars l = .ok t ∧ t.data.all isDigitChar = true := by
  induction l with
  | nil => exact ⟨"", rfl, rfl⟩
  | cons c cs ih =>
    simp only [List.all_cons, Bool.and_eq_true] at h
    obtain ⟨hc, hcs⟩ := h
    obtain ⟨t, ht, htd⟩ := ih hcs
    rcases Bool.or_eq_true _ _ |>.mp (by simpa [isAlnumChar] using hc) with hd | hu
    · refine ⟨String.mk [c] ++ t, ?_, ?_⟩
      · simp only [translitChars, bind, Except.bind, jsUpperChar_of_alnum hc,
          charToNumber_digit hd, ht]
      · rw [String.data_append, List.all_append]
        simp only [htd, Bool.and_true]
        simp [hd]
    · refine ⟨Nat.repr (c.toNat - 55) ++ t, ?_, ?_⟩
      · simp only [translitChars, bind, Except.bind, jsUpperChar_of_alnum hc,
          charToNumber_upper hu, ht]
      · rw [String.data_append, List.all_append]
        have hcn : 65 ≤ c.toNat ∧ c.toNat ≤ 90 := by
          simpa [isUpperChar] using hu
        have := upper_repr_digits ⟨c.toNat - 55, by omega⟩ (by simp; omega)
        simp only at this
        simp [this, htd]

/-! ## Lemmas: the checksum engine -/

theorem translit_flatMap {l : List Char} (h : l.all isAlnumChar = true) :
    translitChars l = .ok (String.mk (l.flatMap fun c =>
      if isUpperChar c then (Nat.repr (c.toNat - 55)).data else [c])) := by
  induction l with
  | nil => rfl
  | cons c cs ih =>
    simp only [List.all_cons, Bool.and_eq_true] at h
    obtain ⟨hc, hcs⟩ := h
    rw [List.flatMap_cons]
    rcases Bool.or_eq_true _ _ |>.mp (by simpa [isAlnumChar] using hc) with hd | hu
    · have hnu : isUpperChar c = false := by
        simp only [isDigitChar, Bool.and_eq_true, decide_eq_true_eq] at hd
        simp [isUpperChar]
        omega
      simp only [translitChars, bind, Except.bind, jsUpperChar_of_alnum hc,
        charToNumber_digit hd, ih hcs, hnu]
      rfl
    · simp only [translitChars, bind, Except.bind, jsUpperChar_of_alnum hc,
        charToNumber_upper hu, ih hcs, hu]
      rfl

theorem strToNat_mul100 (tb : String) :
    strToNat (tb ++ "00") = strToNat tb * 100 := by
  rw [strToNat_append]
  rfl

theorem calculateCheckDigits_eq {cc bank acct : String}
    (hcc : cc.data.all isAlnumChar = true) (hb : bank.data.all isAlnumChar = true)
    (ha : acct.data.all isAlnumChar = true) :
    ∃ tb : String, translitChars (bank.data ++ acct.data ++ cc.data) = .ok tb
      ∧ tb.data.all isDigitChar = true
      ∧ calculateCheckDigits cc bank acct
          = .ok (padStart2 (Nat.repr (98 - strToNat tb * 100 % 97))) := by
  obtain ⟨tb, htb, htbd⟩ :=
    translit_of_alnum (l := bank.data ++ acct.data ++ cc.data)
      (by simp [List.all_append, hb, ha, hcc])
  refine ⟨tb, htb, htbd, ?_⟩
  unfold calculateCheckDigits
  simp only []
  have hre : (bank ++ acct ++ cc ++ "00").data
      = (bank.data ++ acct.data ++ cc.data) ++ "00".data := by
    simp [String.data_append]
  have h00 : translitChars "00".data = .ok "00" := translit_of_digits (by decide)
  rw [hre, translitChars_append htb h00]
  dsimp only
  rw [strToNat_mul100]

/-- C4: on every probe over the alphabet `[0-9A-Z]`, `calculateCheckDigits`
succeeds and returns exactly two decimal digit characters whose value lies in
`[2, 98]` — in particular `"00"` never occurs, and values below 10 carry a
leading zero (the two-character shape is exactly `padStart(2, '0')`). -/
theorem calculateCheckDigits_range (cc bank acct : String)
    (hcc : cc.data.all isAlnumChar = true) (hb : bank.data.all isAlnumChar = true)
    (ha : acct.data.all isAlnumChar = true) :
    (calculateCheckDigits cc bank acct).isOk = true
    ∧ ∀ s, calculateCheckDigits cc bank acct = .ok s →
        s.length = 2 ∧ s.data.all isDigitChar = true
        ∧ 2 ≤ strToNat s ∧ strToNat s ≤ 98 := by
  obtain ⟨tb, htb, htbd, hcd⟩ := calculateCheckDigits_eq hcc hb ha
  have hr : strToNat tb * 100 % 97 ≤ 96 := by
    have := Nat.mod_lt (strToNat tb * 100) (y := 97) (by norm_num)
    omega
  have hn2 : 2 ≤ 98 - strToNat tb * 100 % 97 := by omega
  have hn99 : 98 - strToNat tb * 100 % 97 < 99 := by omega
  have hfacts := padStart2_facts ⟨98 - strToNat tb * 100 % 97, hn99⟩ hn2
  simp only at hfacts
  constructor
  · rw [hcd]; rfl
  · intro s hs
    rw [hcd] at hs
    cases hs
    exact ⟨hfacts.1, hfacts.2.1, by omega, by omega⟩

/-- Witness for C4 at the NL reference probe: the result is `"91"`, two
decimal digits with value in `[2, 98]`. -/
theorem calculateCheckDigits_range_witness :
    (calculateCheckDigits "NL" "ABNA" "0417164300").isOk = true
    ∧ ("91".length = 2 ∧ "91".data.all isDigitChar = true
        ∧ 2 ≤ strToNat "91" ∧ strToNat "91" ≤ 98) :=
  ⟨(calculateCheckDigits_range "NL" "ABNA" "0417164300"
      (by decide) (by decide) (by decide)).1,
   (calculateCheckDigits_range "NL" "ABNA" "0417164300"
      (by decide) (by decide) (by decide)).2 "91" (by decide)⟩

/-- C2 counterexample: for country `"NL"`, bank code `"ABNA"` and account
number `"0417164300"`, `calculateCheckDigits` does not return `"77"` (the
well-known reference IBAN for this body is `NL91ABNA0417164300`). -/
theorem calculateCheckDigits_NL_not_77 :
    calculateCheckDigits "NL" "ABNA" "0417164300" ≠ .ok "77" := by decide

/-- C2 amended: for country `"NL"`, bank code `"ABNA"` and account number
`"0417164300"`, `calculateCheckDigits` returns exactly `"91"`. -/
theorem calculateCheckDigits_NL_reference :
    calculateCheckDigits "NL" "ABNA" "0417164300" = .ok "91" := by decide

/-- C10: on every country code, bank code and account number drawn from the
alphabet `[0-9A-Z]`, the current `calculateCheckDigits` and the legacy one of
`src/unnamed/part_000` compute the same two-character string. -/
theorem calculateCheckDigits_refines_legacy (cc bank acct : String)
    (hcc : cc.data.all isAlnumChar = true) (hb : bank.data.all isAlnumChar = true)
    (ha : acct.data.all isAlnumChar = true) :
    calculateCheckDigits cc bank acct
      = .ok (Legacy.calculateCheckDigits cc bank acct) := by
  have hall : (bank ++ acct ++ cc ++ "00").data.all isAlnumChar = true := by
    simp [String.data_append, List.all_append, hb, ha, hcc]
    decide
  unfold calculateCheckDigits Legacy.calculateCheckDigits
  simp only []
  rw [translit_flatMap hall]

/-- Witness for C10 at the NL reference probe. -/
theorem calculateCheckDigits_refines_legacy_witness :
    calculateCheckDigits "NL" "ABNA" "0417164300"
      = .ok (Legacy.calculateCheckDigits "NL" "ABNA" "0417164300") :=
  calculateCheckDigits_refines_legacy "NL" "ABNA" "0417164300"
    (by decide) (by decide) (by decide)

/-! ## Lemmas: component generators -/

theorem digit_repr_facts : ∀ k : Fin 10,
    (jsNumToString (k.val : Int)).length = 1
    ∧ (jsNumToString (k.val : Int)).data.all isDigitChar = true := by decide

theorem jsNumToString_digit {d : Int} (h0 : 0 ≤ d) (h9 : d ≤ 9) :
    (jsNumToString d).length = 1 ∧ (jsNumToString d).data.all isDigitChar = true := by
  have hlt : d.toNat < 10 := by omega
  have hfin := digit_repr_facts ⟨d.toNat, hlt⟩
  simp only at hfin
  rwa [Int.toNat_of_nonneg h0] at hfin

theorem all_digit_alnum {l : List Char} (h : l.all isDigitChar = true) :
    l.all isAlnumChar = true := by
  rw [List.all_eq_true] at h ⊢
  intro x hx
  simp [isAlnumChar, h x hx]

theorem generateRandomNumericString_ok {n : Nat} {e : Nat → Nat} {fuel : Nat} :
    ∀ {pos : Nat} {s : String} {p : Nat},
    generateRandomNumericString n e fuel pos = .ok s p →
    s.length = n ∧ s.data.all isDigitChar = true := by
  induction n with
  | zero =>
    intro pos s p h
    simp only [generateRandomNumericString, GRes.ok.injEq] at h
    obtain ⟨rfl, -⟩ := h
    exact ⟨rfl, rfl⟩
  | succ n ih =>
    intro pos s p h
    simp only [generateRandomNumericString] at h
    cases hd : getSecureRandomInt 0 9 e fuel pos with
    | ok d p1 =>
      rw [hd] at h
      simp only [GRes.bind] at h
      cases hr : generateRandomNumericString n e fuel p1 with
      | ok rest p2 =>
        rw [hr] at h
        simp only [GRes.bind, GRes.ok.injEq] at h
        obtain ⟨rfl, -⟩ := h
        obtain ⟨hdl, hdd⟩ :=
          jsNumToString_digit (getSecureRandomInt_ok_bounds hd).1
            (getSecureRandomInt_ok_bounds hd).2
        obtain ⟨hrl, hrd⟩ := ih hr
        refine ⟨?_, ?_⟩
        · rw [String.length_append, hdl, hrl]
          omega
        · rw [String.data_append, List.all_append, hdd, hrd]
          rfl
      | err er => rw [hr] at h; simp [GRes.bind] at h
      | spin => rw [hr] at h; simp [GRes.bind] at h
    | err er => rw [hd] at h; simp [GRes.bind] at h
    | spin => rw [hd] at h; simp [GRes.bind] at h

theorem alphanum_getD : ∀ i : Fin 36,
    isAlnumChar (alphanumChars.data.getD i.val ' ') = true := by decide

theorem generateRandomAlphanumericString_ok {n : Nat} {e : Nat → Nat} {fuel : Nat} :
    ∀ {pos : Nat} {s : String} {p : Nat},
    generateRandomAlphanumericString n e fuel pos = .ok s p →
    s.length = n ∧ s.data.all isAlnumChar = true := by
  induction n with
  | zero =>
    intro pos s p h
    simp only [generateRandomAlphanumericString, GRes.ok.injEq] at h
    obtain ⟨rfl, -⟩ := h
    exact ⟨rfl, rfl⟩
  | succ n ih =>
    intro pos s p h
    simp only [generateRandomAlphanumericString] at h
    cases hd : getSecureRandomInt 0 ((alphanumChars.length : Int) - 1) e fuel pos with
    | ok i p1 =>
      rw [hd] at h
      simp only [GRes.bind] at h
      cases hr : generateRandomAlphanumericString n e fuel p1 with
      | ok rest p2 =>
        rw [hr] at h
        simp only [GRes.bind, GRes.ok.injEq] at h
        obtain ⟨rfl, -⟩ := h
        obtain ⟨hi0, hi35⟩ := getSecureRandomInt_ok_bounds hd
        have hlt : i.toNat < 36 := by
          have : ((alphanumChars.length : Nat) : Int) - 1 = 35 := by decide
          omega
        have hch := alphanum_getD ⟨i.toNat, hlt⟩
        simp only at hch
        obtain ⟨hrl, hrd⟩ := ih hr
        refine ⟨?_, ?_⟩
        · rw [String.length_append, hrl]
          show 1 + n = n + 1
          omega
        · rw [String.data_append, List.all_append, hrd, Bool.and_true]
          show (isAlnumChar (alphanumChars.data.getD i.toNat ' ') && true) = true
          rw [hch]
          rfl
      | err er => rw [hr] at h; simp [GRes.bind] at h
      | spin => rw [hr] at h; simp [GRes.bind] at h
    | err er => rw [hd] at h; simp [GRes.bind] at h
    | spin => rw [hd] at h; simp [GRes.bind] at h

theorem sampleBankCodes_nonempty : ∀ c : IBANCountryCode,
    0 < (countries c).sampleBankCodes.length := by decide

theorem sample_facts : ∀ c : IBANCountryCode,
    ∀ x ∈ (countries c).sampleBankCodes,
      x.length = (countries c).bankCodeLength ∧ x.data.all isAlnumChar = true := by
  intro c
  cases c <;> decide

theorem generateBankCode_ok {c : IBANCountryCode} {e : Nat → Nat} {fuel pos : Nat}
    {s : String} {p : Nat} (h : generateBankCode c e fuel pos = .ok s p) :
    s ∈ (countries c).sampleBankCodes := by
  unfold generateBankCode at h
  simp only [] at h
  rw [if_pos (sampleBankCodes_nonempty c)] at h
  cases hg : getSecureRandomInt 0 (((countries c).sampleBankCodes.length : Int) - 1)
      e fuel pos with
  | ok v p1 =>
    rw [hg] at h
    simp only [GRes.bind, GRes.ok.injEq] at h
    obtain ⟨rfl, -⟩ := h
    obtain ⟨h0, h1⟩ := getSecureRandomInt_ok_bounds hg
    have hle : ((countries c).sampleBankCodes.length : Int) - 1
        = ((countries c).sampleBankCodes.length - 1 : Nat) := by
      have := sampleBankCodes_nonempty c
      omega
    have hlt : v.toNat < (countries c).sampleBankCodes.length := by
      have := sampleBankCodes_nonempty c
      omega
    rw [List.getD_eq_getElem _ _ hlt]
    exact List.getElem_mem hlt
  | err er => rw [hg] at h; simp [GRes.bind] at h
  | spin => rw [hg] at h; simp [GRes.bind] at h

theorem generateBankCode_facts {c : IBANCountryCode} {e : Nat → Nat} {fuel pos : Nat}
    {s : String} {p : Nat} (h : generateBankCode c e fuel pos = .ok s p) :
    s.length = (countries c).bankCodeLength ∧ s.data.all isAlnumChar = true :=
  sample_facts c s (generateBankCode_ok h)

theorem generateAccountNumber_ok {c : IBANCountryCode} {e : Nat → Nat} {fuel pos : Nat}
    {s : String} {p : Nat} (h : generateAccountNumber c e fuel pos = .ok s p) :
    s.length = (countries c).accountNumberLength ∧ s.data.all isAlnumChar = true := by
  cases c <;>
    simp only [generateAccountNumber] at h
  case FR =>
    cases ha : generateRandomAlphanumericString 11 e fuel pos with
    | ok a p1 =>
      rw [ha] at h
      simp only [GRes.bind] at h
      cases hb : generateRandomNumericString 2 e fuel p1 with
      | ok b p2 =>
        rw [hb] at h
        simp only [GRes.bind, GRes.ok.injEq] at h
        obtain ⟨rfl, -⟩ := h
        obtain ⟨hal, haa⟩ := generateRandomAlphanumericString_ok ha
        obtain ⟨hbl, hbd⟩ := generateRandomNumericString_ok hb
        constructor
        · rw [String.length_append, hal, hbl]
          rfl
        · rw [String.data_append, List.all_append, haa, all_digit_alnum hbd]
          rfl
      | err er => rw [hb] at h; simp [GRes.bind] at h
      | spin => rw [hb] at h; simp [GRes.bind] at h
    | err er => rw [ha] at h; simp [GRes.bind] at h
    | spin => rw [ha] at h; simp [GRes.bind] at h
  case IT => exact generateRandomAlphanumericString_ok h
  case CH => exact generateRandomAlphanumericString_ok h
  all_goals
    exact ⟨(generateRandomNumericString_ok h).1,
      all_digit_alnum (generateRandomNumericString_ok h).2⟩

/-! ## Lemmas: registry and orchestrator -/

theorem code_length : ∀ c : IBANCountryCode, c.code.length = 2 := by decide

theorem code_alnum : ∀ c : IBANCountryCode, c.code.data.all isAlnumChar = true := by decide

theorem code_normalized : ∀ c : IBANCountryCode, jsTrim (jsUpper c.code) = c.code := by decide

theorem countryOfString_code : ∀ c : IBANCountryCode, countryOfString c.code = some c := by decide

theorem registry_lengths : ∀ c : IBANCountryCode,
    2 + 2 + (countries c).bankCodeLength + (countries c).accountNumberLength
      = (countries c).length := by decide

theorem countryOfString_eq {s : String} {c : IBANCountryCode}
    (h : countryOfString s = some c) : s = c.code := by
  unfold countryOfString at h
  split at h <;>
    first
      | (injection h with h2; subst h2; rfl)
      | exact Option.noConfusion h

theorem validateCountryCode_ok {s : String} {c : IBANCountryCode}
    (h : validateCountryCode s = .ok c) : countryOfString (jsUpper s) = some c := by
  unfold validateCountryCode at h
  split at h
  · simp at h
  · cases hm : countryOfString (jsUpper s) with
    | some d => rw [hm] at h; simp only [Except.ok.injEq] at h; rw [h]
    | none => rw [hm] at h; simp at h

theorem validateCountryCode_normalized {input : String} {c : IBANCountryCode}
    (h : validateCountryCode (jsTrim (jsUpper input)) = .ok c) :
    jsTrim (jsUpper input) = c.code := by
  have h1 := validateCountryCode_ok h
  have h2 : jsUpper (jsTrim (jsUpper input)) = jsTrim (jsUpper input) := by
    rw [jsUpper_jsTrim, jsUpper_jsUpper]
  rw [h2] at h1
  exact countryOfString_eq h1

theorem generateIBAN_ok_inv {input : String} {e : Nat → Nat} {fuel pos : Nat}
    {iban : String} {p : Nat}
    (h : generateIBAN input e fuel pos = .ok iban p) :
    ∃ c bank p1 acct p2 cd,
      validateCountryCode (jsTrim (jsUpper input)) = .ok c
      ∧ jsTrim (jsUpper input) = c.code
      ∧ generateBankCode c e fuel pos = .ok bank p1
      ∧ generateAccountNumber c e fuel p1 = .ok acct p2
      ∧ calculateCheckDigits c.code bank acct = .ok cd
      ∧ validateGeneratedIBAN (c.code ++ cd ++ bank ++ acct) c = .ok ()
      ∧ iban = c.code ++ cd ++ bank ++ acct := by
  unfold generateIBAN generateIBANwith at h
  simp only [] at h
  cases hv : validateCountryCode (jsTrim (jsUpper input)) with
  | error er => rw [hv] at h; simp at h
  | ok c =>
    rw [hv] at h
    have hn := validateCountryCode_normalized hv
    rw [hn] at h
    dsimp only at h
    cases hbk : generateBankCode c e fuel pos with
    | err er =>
      rw [hbk] at h
      simp only [GRes.bind] at h
      split at h <;> simp_all
    | spin => rw [hbk] at h; simp only [GRes.bind] at h; simp at h
    | ok bank p1 =>
      rw [hbk] at h
      simp only [GRes.bind] at h
      cases hacct : generateAccountNumber c e fuel p1 with
      | err er =>
        rw [hacct] at h
        simp only [GRes.bind] at h
        split at h <;> simp_all
      | spin => rw [hacct] at h; simp only [GRes.bind] at h; simp at h
      | ok acct p2 =>
        rw [hacct] at h
        simp only [GRes.bind] at h
        cases hcd : calculateCheckDigits c.code bank acct with
        | error er =>
          rw [hcd] at h
          dsimp only at h
          split at h <;> simp_all
        | ok cd =>
          rw [hcd] at h
          dsimp only at h
          cases hval : validateGeneratedIBAN (c.code ++ cd ++ bank ++ acct) c with
          | error er =>
            rw [hval] at h
            dsimp only at h
            split at h <;> simp_all
          | ok u =>
            rw [hval] at h
            dsimp only at h
            simp only [GRes.ok.injEq] at h
            obtain ⟨rfl, rfl⟩ := h
            exact ⟨c, bank, p1, acct, p2, cd, rfl, hn, hbk, hacct, hcd,
              by cases u; exact hval, rfl⟩

theorem country_of_code_eq {c c' : IBANCountryCode} (h : c.code = c'.code) : c = c' := by
  have h1 := countryOfString_code c
  rw [h, countryOfString_code c'] at h1
  injection h1 with h2
  exact h2.symm

/-- C3: every successful `generateIBAN` run for a supported country code
returns a string whose length is exactly the registry's `length` field for
that country, whatever the entropy stream produced. -/
theorem generateIBAN_length (c : IBANCountryCode) (e : Nat → Nat) (fuel pos : Nat)
    (iban : String) (p : Nat)
    (h : generateIBAN c.code e fuel pos = .ok iban p) :
    iban.length = (countries c).length := by
  obtain ⟨c', bank, p1, acct, p2, cd, hv, hn, hbk, hacct, hcd, hval, rfl⟩ :=
    generateIBAN_ok_inv h
  have hc : c' = c := by
    rw [code_normalized c] at hn
    exact (country_of_code_eq hn).symm
  subst hc
  obtain ⟨hbl, hba⟩ := generateBankCode_facts hbk
  obtain ⟨hal, haa⟩ := generateAccountNumber_ok hacct
  have hcdf := (calculateCheckDigits_range c'.code bank acct
    (code_alnum c') hba haa).2 cd hcd
  rw [String.length_append, String.length_append, String.length_append,
    code_length c', hcdf.1, hbl, hal]
  exact registry_lengths c'

/-- Witness for C3: the all-zero entropy stream generates
`NL85ABNA0000000000` for `"NL"`, of length 18. -/
theorem generateIBAN_length_witness :
    ("NL85ABNA0000000000" : String).length = (countries IBANCountryCode.NL).length :=
  generateIBAN_length .NL (fun _ => 0) 1 0 "NL85ABNA0000000000" 11 (by decide)

/-- C7: the post-generation self-verification can never throw inside
`generateIBAN`: whenever the component generators and the checksum engine
produce values, `validateGeneratedIBAN` accepts the assembled string, so the
`InternalGenerationFault` branch is unreachable. -/
theorem validateGeneratedIBAN_never_fails (c : IBANCountryCode) (e : Nat → Nat)
    (fuel pos : Nat) (bank : String) (p1 : Nat) (acct : String) (p2 : Nat) (cd : String)
    (hbk : generateBankCode c e fuel pos = .ok bank p1)
    (hacct : generateAccountNumber c e fuel p1 = .ok acct p2)
    (hcd : calculateCheckDigits c.code bank acct = .ok cd) :
    validateGeneratedIBAN (c.code ++ cd ++ bank ++ acct) c = .ok () := by
  obtain ⟨hbl, hba⟩ := generateBankCode_facts hbk
  obtain ⟨hal, haa⟩ := generateAccountNumber_ok hacct
  have hcdf := (calculateCheckDigits_range c.code bank acct
    (code_alnum c) hba haa).2 cd hcd
  have hlen : (c.code ++ cd ++ bank ++ acct).length = (countries c).length := by
    rw [String.length_append, String.length_append, String.length_append,
      code_length c, hcdf.1, hbl, hal]
    exact registry_lengths c
  have hdata : (c.code ++ cd ++ bank ++ acct).data
      = c.code.data ++ (cd.data ++ (bank.data ++ acct.data)) := by
    simp [String.data_append, List.append_assoc]
  have hcode2 : c.code.data.length = 2 := code_length c
  have hcd2 : cd.data.length = 2 := hcdf.1
  have hpre : c.code.data.isPrefixOf (c.code ++ cd ++ bank ++ acct).data = true := by
    rw [hdata, List.isPrefixOf_iff_prefix]
    exact List.prefix_append _ _
  have hsub : (((c.code ++ cd ++ bank ++ acct).data.drop 2).take 2) = cd.data := by
    rw [hdata, List.drop_left' hcode2, List.take_left' hcd2]
  unfold validateGeneratedIBAN
  simp only []
  rw [if_neg (not_ne_iff.mpr hlen), if_neg (not_ne_iff.mpr hpre), hsub,
    if_neg (not_ne_iff.mpr _)]
  rw [hcd2]
  simp [hcdf.2.1]

/-- Witness for C7 with the all-zero entropy stream for `"NL"`. -/
theorem validateGeneratedIBAN_never_fails_witness :
    validateGeneratedIBAN (IBANCountryCode.NL.code ++ "85" ++ "ABNA" ++ "0000000000")
      IBANCountryCode.NL = .ok () :=
  validateGeneratedIBAN_never_fails .NL (fun _ => 0) 1 0 "ABNA" 1 "0000000000" 11 "85"
    (by decide) (by decide) (by decide)

/-- C1: every string returned by `generateIBAN` for a supported country code
passes ISO 7064 mod-97 validation: moving the first four characters
(`countryCode ++ checkDigits`) behind `bankCode ++ accountNumber`,
transliterating, and reducing the numeral modulo 97 yields exactly 1 — the
spec-modelled `validateIBAN` of §4.4 returns `true` on it, whatever the
entropy stream produced. -/
theorem generateIBAN_valid (c : IBANCountryCode) (e : Nat → Nat) (fuel pos : Nat)
    (iban : String) (p : Nat)
    (h : generateIBAN c.code e fuel pos = .ok iban p) :
    validateIBAN iban = true := by
  obtain ⟨c', bank, p1, acct, p2, cd, hv, hn, hbk, hacct, hcd, hval, rfl⟩ :=
    generateIBAN_ok_inv h
  obtain ⟨hbl, hba⟩ := generateBankCode_facts hbk
  obtain ⟨hal, haa⟩ := generateAccountNumber_ok hacct
  obtain ⟨tb, htb, htbd, hcdeq⟩ := calculateCheckDigits_eq (code_alnum c') hba haa
  rw [hcd] at hcdeq
  injection hcdeq with hcdval
  have hr : strToNat tb * 100 % 97 ≤ 96 := by
    have := Nat.mod_lt (strToNat tb * 100) (y := 97) (by norm_num)
    omega
  have hfin : 98 - strToNat tb * 100 % 97 < 99 := by omega
  have hfacts := padStart2_facts ⟨98 - strToNat tb * 100 % 97, hfin⟩
    (by show 2 ≤ 98 - strToNat tb * 100 % 97; omega)
  have hcdlen : cd.data.length = 2 := by rw [hcdval]; exact hfacts.1
  have hcddig : cd.data.all isDigitChar = true := by rw [hcdval]; exact hfacts.2.1
  have hcdstr : strToNat cd = 98 - strToNat tb * 100 % 97 := by
    rw [hcdval]; exact hfacts.2.2
  have hdata : (c'.code ++ cd ++ bank ++ acct).data
      = (c'.code.data ++ cd.data) ++ (bank.data ++ acct.data) := by
    simp [String.data_append, List.append_assoc]
  have h4 : (c'.code.data ++ cd.data).length = 4 := by
    rw [List.length_append, hcdlen]
    have : c'.code.data.length = 2 := code_length c'
    omega
  have htcd : translitChars cd.data = .ok cd := translit_of_digits hcddig
  unfold validateIBAN
  simp only []
  rw [hdata, List.drop_left' h4, List.take_left' h4]
  have hassoc : (bank.data ++ acct.data) ++ (c'.code.data ++ cd.data)
      = (bank.data ++ acct.data ++ c'.code.data) ++ cd.data := by
    simp [List.append_assoc]
  rw [hassoc, translitChars_append htb htcd]
  dsimp only
  rw [strToNat_append]
  have hcl : cd.length = 2 := hcdlen
  rw [hcl, hcdstr]
  have hmod : (strToNat tb * 10 ^ 2 + (98 - strToNat tb * 100 % 97)) % 97 = 1 := by
    have h100 : (10 : Nat) ^ 2 = 100 := by norm_num
    rw [h100]
    omega
  rw [hmod]
  rfl

/-- Witness for C1: the all-zero entropy stream generates
`NL85ABNA0000000000` for `"NL"`, and it passes mod-97 validation. -/
theorem generateIBAN_valid_witness :
    validateIBAN "NL85ABNA0000000000" = true :=
  generateIBAN_valid .NL (fun _ => 0) 1 0 "NL85ABNA0000000000" 11 (by decide)

/-- C6 counterexample: the empty input (whose trimmed upper-cased form `""`
is not a registry key) is rejected with `"Country code is required"`, a
message that does not enumerate the supported codes (it does not even contain
`"NL"`), so the claim's description of the error does not hold for every
non-key input. -/
theorem generateIBAN_unsupported_cex :
    generateIBAN "" (fun _ => 0) 1 0
        = .err ⟨"IBANGenerationError", "Country code is required", none⟩
    ∧ ¬ List.IsInfix "NL".data "Country code is required".data := by
  exact ⟨by decide, by decide⟩

/-- C6 amended: for every input whose trimmed, upper-cased form is not a
registry key, `generateIBAN` throws without ever consulting the checksum
engine (the result is the same for any two checksum engines); when the
normalized form is non-empty the error is the unsupported-country error whose
message enumerates every supported code, and when it is empty the error is
`"Country code is required"`. -/
theorem generateIBAN_unsupported (input : String) (e : Nat → Nat) (fuel pos : Nat)
    (f g : String → String → String → Except JSError String)
    (h : countryOfString (jsTrim (jsUpper input)) = none) :
    generateIBANwith f input e fuel pos = generateIBANwith g input e fuel pos
    ∧ (jsTrim (jsUpper input) ≠ "" →
        generateIBANwith f input e fuel pos
          = .err ⟨"IBANGenerationError", unsupportedMessage (jsTrim (jsUpper input)),
              some (jsTrim (jsUpper input))⟩
        ∧ ∀ k ∈ countryKeys,
            List.IsInfix k.data (unsupportedMessage (jsTrim (jsUpper input))).data)
    ∧ (jsTrim (jsUpper input) = "" →
        generateIBANwith f input e fuel pos
          = .err ⟨"IBANGenerationError", "Country code is required", none⟩) := by
  have hnn : jsUpper (jsTrim (jsUpper input)) = jsTrim (jsUpper input) := by
    rw [jsUpper_jsTrim, jsUpper_jsUpper]
  by_cases hemp : jsTrim (jsUpper input) = ""
  · have hvc : validateCountryCode (jsTrim (jsUpper input))
        = .error ⟨"IBANGenerationError", "Country code is required", none⟩ := by
      unfold validateCountryCode
      rw [if_pos hemp]
    have hgen : ∀ f' : String → String → String → Except JSError String,
        generateIBANwith f' input e fuel pos
          = .err ⟨"IBANGenerationError", "Country code is required", none⟩ := by
      intro f'
      unfold generateIBANwith
      simp only []
      rw [hvc]
    exact ⟨(hgen f).trans (hgen g).symm,
      fun hne => absurd hemp hne, fun _ => hgen f⟩
  · have hvc : validateCountryCode (jsTrim (jsUpper input))
        = .error ⟨"IBANGenerationError", unsupportedMessage (jsTrim (jsUpper input)),
            some (jsTrim (jsUpper input))⟩ := by
      unfold validateCountryCode
      rw [if_neg hemp, hnn, h]
    have hgen : ∀ f' : String → String → String → Except JSError String,
        generateIBANwith f' input e fuel pos
          = .err ⟨"IBANGenerationError", unsupportedMessage (jsTrim (jsUpper input)),
              some (jsTrim (jsUpper input))⟩ := by
      intro f'
      unfold generateIBANwith
      simp only []
      rw [hvc]
    have hkJ : ∀ k ∈ countryKeys,
        List.IsInfix k.data (String.intercalate ", " countryKeys).data := by decide
    have hinfix : ∀ k ∈ countryKeys,
        List.IsInfix k.data (unsupportedMessage (jsTrim (jsUpper input))).data := by
      intro k hk
      have hmsg : (unsupportedMessage (jsTrim (jsUpper input))).data
          = ("Country code \x27" ++ jsTrim (jsUpper input)
              ++ "\x27 is not supported. Supported codes: ").data
            ++ (String.intercalate ", " countryKeys).data := by
        rw [unsupportedMessage, String.data_append]
      rw [hmsg]
      exact (hkJ k hk).trans (List.suffix_append _ _).isInfix
    exact ⟨(hgen f).trans (hgen g).symm,
      fun _ => ⟨hgen f, hinfix⟩, fun habs => absurd habs hemp⟩

/-- Witness for the amended C6 at input `"ZZ"` with two distinct checksum
engines: the unsupported-country error is produced and its message contains
the last supported code `"DK"`. -/
theorem generateIBAN_unsupported_witness :
    generateIBANwith calculateCheckDigits "ZZ" (fun _ => 0) 1 0
        = .err ⟨"IBANGenerationError", unsupportedMessage (jsTrim (jsUpper "ZZ")),
            some (jsTrim (jsUpper "ZZ"))⟩
    ∧ List.IsInfix "DK".data (unsupportedMessage (jsTrim (jsUpper "ZZ"))).data :=
  ⟨((generateIBAN_unsupported "ZZ" (fun _ => 0) 1 0 calculateCheckDigits
      (fun _ _ _ => Except.ok "") (by decide)).2.1 (by decide)).1,
   ((generateIBAN_unsupported "ZZ" (fun _ => 0) 1 0 calculateCheckDigits
      (fun _ _ _ => Except.ok "") (by decide)).2.1 (by decide)).2 "DK" (by decide)⟩

/-- C9 counterexample: the `sampleBankCodes` pool of `FR` contains the entry
`"2004100005"` twice (positions 0 and 3), so the pools are not all pairwise
distinct. -/
theorem sampleBankCodes_FR_duplicate :
    ¬ (countries IBANCountryCode.FR).sampleBankCodes.Nodup := by decide

/-- C9 amended: every country's `sampleBankCodes` pool is non-empty, each of
its entries has exactly `bankCodeLength` characters, and `generateBankCode`
always returns an element of the pool; the entries are pairwise distinct for
every country except `FR`, whose pool repeats `"2004100005"`. -/
theorem sampleBankCodes_spec (c : IBANCountryCode) :
    (countries c).sampleBankCodes ≠ []
    ∧ (∀ x ∈ (countries c).sampleBankCodes, x.length = (countries c).bankCodeLength)
    ∧ (∀ e fuel pos s p, generateBankCode c e fuel pos = .ok s p →
        s ∈ (countries c).sampleBankCodes)
    ∧ (c ≠ .FR → (countries c).sampleBankCodes.Nodup) := by
  refine ⟨?_, ?_, ?_, ?_⟩
  · have hpos := sampleBankCodes_nonempty c
    intro hnil
    rw [hnil] at hpos
    simp at hpos
  · intro x hx
    exact (sample_facts c x hx).1
  · intro e fuel pos s p hgen
    exact generateBankCode_ok hgen
  · intro hne
    cases c <;> first | decide | exact absurd rfl hne

/-- Witness for the amended C9: for `NL` the pool is duplicate-free and the
all-zero entropy stream picks `"ABNA"` from it. -/
theorem sampleBankCodes_spec_witness :
    "ABNA" ∈ (countries IBANCountryCode.NL).sampleBankCodes
    ∧ (countries IBANCountryCode.NL).sampleBankCodes.Nodup :=
  ⟨(sampleBankCodes_spec .NL).2.2.1 (fun _ => 0) 1 0 "ABNA" 1 (by decide),
   (sampleBankCodes_spec .NL).2.2.2 (by decide)⟩
